import Mathlib

/-!
Verification of the insurance-CRM core (src/app.py).

The Python source is shallowly embedded as follows:
* Fernet ciphertexts are modelled by the type `CipherText`: a well-formed
  authenticated token carries the key it was produced under, the random
  nonce, and the plaintext; every other string is `CipherText.raw`.  A
  token decrypts iff its key matches the process key; anything else makes
  the library raise, modelled by `fernet_decrypt` returning `none`.
* bcrypt hashes are modelled by `BcryptHash`: the functional contract of a
  salted one-way hash is that `checkpw` succeeds exactly on the hashed
  password (collisions are ignored, as the spec assumes).
* Calendar dates (the `expiry_date` column, `datetime.now().date()`) are
  modelled as integer day numbers; `(expiry - today).days` becomes integer
  subtraction, and the store's `ORDER BY expiry_date` agrees with the
  order on day numbers.
* The supabase `clients` table is a list of rows plus an availability
  flag; an unavailable store makes every network call fail.  A Python
  exception propagating out of a function is modelled by the function
  returning `Except.error`; a function that catches exceptions internally
  returns a total result instead.
* `st.session_state` around login is the record `SessionState`; the
  `st.error` UI side effects carry no data and are not modelled.
-/

/-! ## Field cipher (src/app.py lines 56-68) -/

/-- A value of Python type `str` holding either a well-formed Fernet token
or any other string.  Well-formedness under a key is part of the
constructor: the HMAC makes forging a valid token infeasible, which the
spec treats as absolute. -/
inductive CipherText where
  | token (key : Nat) (nonce : Nat) (plain : String)
  | raw (s : String)
deriving DecidableEq

/-- The fixed sentinel string returned by `decrypt_text` on failure. -/
def SENTINEL : String := "[解密失敗]"

/-- `cipher_suite.decrypt`: succeeds only on a token made under the same
key; `none` models the `InvalidToken` exception. -/
def fernet_decrypt (key : Nat) : CipherText → Option String
  | .token k _ p => if k = key then some p else none
  | .raw _ => none

/-- `encrypt_text` (line 60): empty input is returned unchanged (the empty
string, which is not a valid token), otherwise a fresh token under the
process key with a fresh nonce. -/
def encrypt_text (key nonce : Nat) (text : String) : CipherText :=
  if text = "" then .raw "" else .token key nonce text

/-- `decrypt_text` (line 64): try/except returning the sentinel on any
failure. -/
def decrypt_text (key : Nat) (c : CipherText) : String :=
  match fernet_decrypt key c with
  | some p => p
  | none => SENTINEL

/-! ## Credential vault (src/app.py lines 70-74, 92-98) -/

/-- A stored bcrypt hash: the salt baked into the hash string, plus the
functional content of the one-way hash — which password verifies against
it. -/
structure BcryptHash where
  salt : Nat
  pwd : String
deriving DecidableEq

/-- `hash_password` (line 70): bcrypt with a fresh random salt. -/
def hash_password (password : String) (salt : Nat) : BcryptHash :=
  { salt := salt, pwd := password }

/-- `check_password` (line 73): `bcrypt.checkpw`. -/
def check_password (password : String) (hashed : BcryptHash) : Bool :=
  decide (password = hashed.pwd)

/-- One row of the `users` table: `select("*")` returns all three
columns. -/
structure UserRow where
  username : String
  full_name : String
  password_hash : BcryptHash
deriving DecidableEq

/-- `login_user` (line 92): looks the username up in the `users` table
(`response.data[0]` is the first matching row), then checks the password;
both failure cases return the same pair `(False, None)`. -/
def login_user (users : List UserRow) (username password : String) :
    Bool × Option UserRow :=
  match users.find? (fun v => decide (v.username = username)) with
  | none => (false, none)
  | some u =>
    if check_password password u.password_hash then (true, some u)
    else (false, none)

/-- The login-relevant slice of `st.session_state` (lines 159-161). -/
structure SessionState where
  logged_in : Bool
  user_info : Option UserRow
deriving DecidableEq

/-- The login form handler in `main` (lines 176-182): on success the full
returned row is stored in the session; on failure the state is left
unchanged (an error message is shown instead). -/
def main_login_step (users : List UserRow) (st : SessionState)
    (u_name p_word : String) : SessionState :=
  let r := login_user users u_name p_word
  if r.1 then { logged_in := true, user_info := r.2 } else st

/-! ## Tenant-scoped record store (src/app.py lines 100-154) -/

/-- One row of the `clients` table (logical schema from the insert payload
at line 102 and the reads at lines 128-147).  `insurance_type` is
optional because `get_clients` reads it with `row.get(..., "未分類")`. -/
structure ClientRow where
  id : Nat
  agent_username : String
  encrypted_name : CipherText
  encrypted_plate : CipherText
  phone_number : String
  expiry_date : Int
  insurance_type : Option String
  notes : String
deriving DecidableEq

/-- A network/backend failure of a supabase call. -/
inductive StoreError where
  | unavailable
deriving DecidableEq

/-- The remote `clients` table: its rows, plus whether the backend is
reachable.  Every call on an unreachable backend raises. -/
structure ClientsTable where
  rows : List ClientRow
  available : Bool
deriving DecidableEq

/-- The ordering used by the store's `order("expiry_date")`. -/
def expiry_le (a b : ClientRow) : Prop :=
  a.expiry_date ≤ b.expiry_date

instance : DecidableRel expiry_le :=
  fun a b => inferInstanceAs (Decidable (a.expiry_date ≤ b.expiry_date))

instance : IsTotal ClientRow expiry_le :=
  ⟨fun a b => Int.le_total a.expiry_date b.expiry_date⟩

instance : IsTrans ClientRow expiry_le :=
  ⟨fun _ _ _ hab hbc => le_trans hab hbc⟩

/-- The store-side query issued by `get_clients` (line 121):
`select("*").eq("agent_username", agent_user).order("expiry_date")`.
The owner filter and the ordering are evaluated by the persistence
service itself; the caller receives only the filtered, sorted rows, or an
error when the backend is unreachable. -/
def clients_select_eq_order (t : ClientsTable) (agent_user : String) :
    Except StoreError (List ClientRow) :=
  if t.available then
    .ok (List.insertionSort expiry_le
      (t.rows.filter (fun r => decide (r.agent_username = agent_user))))
  else
    .error .unavailable

/-- One row of the DataFrame built by `get_clients` (lines 137-147); the
keys 狀態/姓名/保險種類/車牌/到期日/剩餘天數/電話/備註 are rendered as
status/name/insurance_type/plate/expiry_date/days_left/phone/notes. -/
structure ProcessedClient where
  id : Nat
  status : String
  name : String
  insurance_type : String
  plate : String
  expiry_date : Int
  days_left : Int
  phone : String
  notes : String
deriving DecidableEq

/-- The status classification at lines 133-135. -/
def status_of (days_left : Int) : String :=
  if days_left < 0 then "❌ 已過期"
  else if days_left ≤ 30 then "⚠️ 即將到期"
  else "✅ 正常"

/-- The per-row processing in the loop of `get_clients` (lines 128-147):
`days_left = (expiry_date - today).days`, status classification, and
decryption of name and plate. -/
def process_row (key : Nat) (today : Int) (row : ClientRow) : ProcessedClient :=
  let days_left := row.expiry_date - today
  { id := row.id
    status := status_of days_left
    name := decrypt_text key row.encrypted_name
    insurance_type := row.insurance_type.getD "未分類"
    plate := decrypt_text key row.encrypted_plate
    expiry_date := row.expiry_date
    days_left := days_left
    phone := row.phone_number
    notes := row.notes }

/-- `get_clients` (lines 118-151): runs the store-side query, processes
each returned row, and converts any store failure into an empty
DataFrame (after reporting it with `st.error`).  An empty row set also
yields an empty DataFrame (line 123), which agrees with mapping over the
empty list. -/
def get_clients (key : Nat) (today : Int) (t : ClientsTable)
    (agent_user : String) : List ProcessedClient :=
  match clients_select_eq_order t agent_user with
  | .ok rows => rows.map (process_row key today)
  | .error _ => []

/-- `add_client` (lines 100-116): encrypts name and plate, attaches the
owner, and inserts; the try/except converts a store failure into the
return value `False` with nothing written. -/
def add_client (t : ClientsTable) (key nonce1 nonce2 new_id : Nat)
    (agent_user name plate phone : String) (expiry : Int)
    (insurance_type notes : String) : Bool × ClientsTable :=
  let payload : ClientRow :=
    { id := new_id
      agent_username := agent_user
      encrypted_name := encrypt_text key nonce1 name
      encrypted_plate := encrypt_text key nonce2 plate
      phone_number := phone
      expiry_date := expiry
      insurance_type := some insurance_type
      notes := notes }
  if t.available then (true, { t with rows := t.rows ++ [payload] })
  else (false, t)

/-- `delete_client` (lines 153-154): deletes by id with NO try/except —
a store failure propagates to the caller as an exception, modelled by
`Except.error`. -/
def delete_client (t : ClientsTable) (client_id : Nat) :
    Except StoreError ClientsTable :=
  if t.available then
    .ok { t with rows := t.rows.filter (fun r => !decide (r.id = client_id)) }
  else
    .error .unavailable

/-! ## Search (src/app.py lines 218-223)

`pandas.Series.str.contains(pat)` defaults to `regex=True`: the term is
matched with `re.search`.  Python regular expressions are modelled for a
delimited fragment only — patterns built from literal characters, the
`.` metacharacter (any one character), and the quantifiers `*`, `+`, `?`
applied to a single preceding atom.  Patterns using any other special
character (character classes, groups, alternation, anchors, braces,
escapes) or with a quantifier in atom position are outside the fragment:
`parsePat` returns `none` for them and the model asserts nothing about
the program's behaviour there. -/

/-- Python's regex special characters. -/
def METACHARS : List Char :=
  '.' :: ['^', '$', '*', '+', '?', '[', ']', '|', '(', ')',
          Char.ofNat 92, Char.ofNat 123, Char.ofNat 125]

/-- The special characters whose constructs the model does not cover
(every metacharacter except `.`; a quantifier in atom position is also
refused, as `re` raises "nothing to repeat" there). -/
def UNSUPPORTED : List Char :=
  ['^', '$', '*', '+', '?', '[', ']', '|', '(', ')',
   Char.ofNat 92, Char.ofNat 123, Char.ofNat 125]

/-- One regex atom of the modelled fragment. -/
inductive RAtom where
  | chr (c : Char)
  | dot
deriving DecidableEq

/-- One quantified piece of a pattern: an atom taken exactly once, or
under `*` (zero or more), `+` (one or more), `?` (zero or one). -/
inductive RPiece where
  | once (a : RAtom)
  | star (a : RAtom)
  | plus (a : RAtom)
  | opt (a : RAtom)
deriving DecidableEq

/-- Parse a pattern string into the modelled fragment: `none` when the
pattern uses a construct outside it. -/
def parsePat : List Char → Option (List RPiece)
  | [] => some []
  | c :: rest =>
    if c ∈ UNSUPPORTED then none
    else
      let a := if c = '.' then RAtom.dot else RAtom.chr c
      match rest with
      | [] => some [.once a]
      | q :: rest2 =>
        if q = '*' then (parsePat rest2).map (fun l => .star a :: l)
        else if q = '+' then (parsePat rest2).map (fun l => .plus a :: l)
        else if q = '?' then (parsePat rest2).map (fun l => .opt a :: l)
        else (parsePat (q :: rest2)).map (fun l => .once a :: l)

/-- Does the atom match one character? -/
def matchAtom : RAtom → Char → Bool
  | .chr a, c => decide (a = c)
  | .dot, _ => true

/-- Does the pattern match some prefix of the string?  Backtracking
matcher over the fragment; the fuel only bounds recursion depth — every
call shrinks pattern + string, so `pieces + chars + 1` always
suffices. -/
def matchHereF : Nat → List RPiece → List Char → Bool
  | 0, _, _ => false
  | _ + 1, [], _ => true
  | _ + 1, .once _ :: _, [] => false
  | f + 1, .once a :: ps, c :: cs => matchAtom a c && matchHereF f ps cs
  | f + 1, .opt _ :: ps, [] => matchHereF f ps []
  | f + 1, .opt a :: ps, c :: cs =>
      matchHereF f ps (c :: cs) || (matchAtom a c && matchHereF f ps cs)
  | f + 1, .star _ :: ps, [] => matchHereF f ps []
  | f + 1, .star a :: ps, c :: cs =>
      matchHereF f ps (c :: cs)
        || (matchAtom a c && matchHereF f (.star a :: ps) cs)
  | _ + 1, .plus _ :: _, [] => false
  | f + 1, .plus a :: ps, c :: cs =>
      matchAtom a c && matchHereF f (.star a :: ps) cs

/-- Does the pattern match some prefix of the string? -/
def matchHere (ps : List RPiece) (s : List Char) : Bool :=
  matchHereF (ps.length + s.length + 1) ps s

/-- `re.search`: does the pattern match starting at some position? -/
def reSearch (ps : List RPiece) : List Char → Bool
  | [] => matchHere ps []
  | c :: cs => matchHere ps (c :: cs) || reSearch ps cs

/-- `Series.str.contains(pat)` applied to element `s`, with the default
`regex=True`, `case=True`: `some b` when the pattern lies in the
modelled fragment, `none` when it is outside it (unspecified here). -/
def str_contains (s pat : String) : Option Bool :=
  (parsePat pat.data).map (fun ps => reSearch ps s.data)

/-- Literal prefix match (no metacharacters). -/
def litHere : List Char → List Char → Bool
  | [], _ => true
  | _ :: _, [] => false
  | p :: ps, c :: cs => decide (p = c) && litHere ps cs

/-- Literal substring search, used below to state the spec's words. -/
def litSearch (p : List Char) : List Char → Bool
  | [] => litHere p []
  | c :: cs => litHere p (c :: cs) || litSearch p cs

/-- The spec's words — case-sensitive literal substring containment —
for comparison with `str_contains`. -/
def spec_contains_substring (sub s : String) : Bool :=
  litSearch sub.data s.data

/-- The search filter in `main` (lines 218-223): an empty (falsy) term
leaves the set unchanged, otherwise keep the rows whose decrypted name
or plate matches the term under `str.contains` (regex search).  The
result is `none` when the term is a pattern outside the modelled regex
fragment: there the model leaves the program's behaviour
unspecified. -/
def main_search_filter (search_term : String)
    (df : List ProcessedClient) : Option (List ProcessedClient) :=
  if search_term = "" then some df
  else (parsePat search_term.data).map (fun ps =>
    df.filter (fun r => reSearch ps r.name.data || reSearch ps r.plate.data))

/-! ## Registration (not present in src/app.py) -/

/-- Registration failure. -/
inductive RegError where
  | alreadyExists
deriving DecidableEq

/-- Modelled from the spec: the repository's source under src/ contains no
registration operation (src/app.py only logs users in), so §4.1 is
followed: `register(username, full_name, password)` fails with
`AlreadyExists` when the username is already present, and otherwise
derives a fresh random salt, computes the salted hash, and persists
`{username, full_name, password_hash}`.  The pair returned is the
operation's result together with the resulting `users` table. -/
def register (users : List UserRow) (username full_name password : String)
    (salt : Nat) : Except RegError UserRow × List UserRow :=
  if users.any (fun u => decide (u.username = username)) then
    (.error .alreadyExists, users)
  else
    let row : UserRow :=
      { username := username
        full_name := full_name
        password_hash := hash_password password salt }
    (.ok row, users ++ [row])

/-! ## Claims -/

/-- C1: `get_clients` returns only records owned by the requesting agent:
every row the store-side query yields is owned by `A`, no row owned by a
distinct agent `B` ever appears, and `get_clients` processes the query
result as-is — the owner filter lives inside `clients_select_eq_order`
(the store query), not in an in-memory post-filter. -/
theorem get_clients_owner_isolation (t : ClientsTable) (A : String)
    (rows : List ClientRow) (h : clients_select_eq_order t A = .ok rows) :
    (∀ r ∈ rows, r.agent_username = A) ∧
    (∀ B, B ≠ A → ∀ r ∈ rows, r.agent_username ≠ B) ∧
    (∀ key today, get_clients key today t A = rows.map (process_row key today)) := by
  have hmem : ∀ r ∈ rows, r.agent_username = A := by
    intro r hr
    unfold clients_select_eq_order at h
    by_cases hav : t.available
    · rw [if_pos hav] at h
      have hrows := Except.ok.inj h
      rw [← hrows] at hr
      have hr2 := (List.mem_insertionSort expiry_le).mp hr
      exact of_decide_eq_true (List.mem_filter.mp hr2).2
    · rw [if_neg hav] at h
      exact absurd h (by simp)
  refine ⟨hmem, ?_, ?_⟩
  · intro B hBA r hr hrB
    exact hBA (hrB.symm.trans (hmem r hr))
  · intro key today
    simp [get_clients, h]

/-- C1 witness: a two-agent store where each agent owns one record; the
query for alice yields exactly alice's row, and `get_clients` processes
exactly that row. -/
theorem get_clients_owner_isolation_witness :
    ClientRow.agent_username ⟨1, "alice", .raw "x", .raw "y", "", 5, none, ""⟩
        = "alice" ∧
    get_clients 0 100
        ⟨[⟨1, "alice", .raw "x", .raw "y", "", 5, none, ""⟩,
          ⟨2, "bob", .raw "u", .raw "v", "", 3, none, ""⟩], true⟩ "alice"
      = [process_row 0 100 ⟨1, "alice", .raw "x", .raw "y", "", 5, none, ""⟩] := by
  have h := get_clients_owner_isolation
    ⟨[⟨1, "alice", .raw "x", .raw "y", "", 5, none, ""⟩,
      ⟨2, "bob", .raw "u", .raw "v", "", 3, none, ""⟩], true⟩
    "alice"
    [⟨1, "alice", .raw "x", .raw "y", "", 5, none, ""⟩]
    (by rfl)
  exact ⟨h.1 _ (by simp), by simpa using h.2.2 0 100⟩

/-- C2: the derived status is a pure function of `expiry_date - today`
(an integer that may be negative): negative days yield 已過期 (EXPIRED),
0 through 30 yield 即將到期 (URGENT), more than 30 yield 正常 (OK); in
particular expiry = today is URGENT and expiry = today + 31 is OK. -/
theorem status_derivation (key : Nat) (today : Int) (row : ClientRow) :
    (process_row key today row).days_left = row.expiry_date - today ∧
    (row.expiry_date - today < 0 →
      (process_row key today row).status = "❌ 已過期") ∧
    (0 ≤ row.expiry_date - today → row.expiry_date - today ≤ 30 →
      (process_row key today row).status = "⚠️ 即將到期") ∧
    (30 < row.expiry_date - today →
      (process_row key today row).status = "✅ 正常") ∧
    (row.expiry_date = today →
      (process_row key today row).status = "⚠️ 即將到期") ∧
    (row.expiry_date = today + 31 →
      (process_row key today row).status = "✅ 正常") := by
  refine ⟨rfl, ?_, ?_, ?_, ?_, ?_⟩ <;>
    · intros
      simp only [process_row, status_of]
      split_ifs <;> first | rfl | omega

/-- C2 witness: expiry = today classifies as URGENT; expiry = today + 31
classifies as OK; a past expiry classifies as EXPIRED. -/
theorem status_derivation_witness :
    (process_row 0 100 ⟨1, "a", .raw "", .raw "", "", 100, none, ""⟩).status
        = "⚠️ 即將到期" ∧
    (process_row 0 100 ⟨2, "a", .raw "", .raw "", "", 131, none, ""⟩).status
        = "✅ 正常" ∧
    (process_row 0 100 ⟨3, "a", .raw "", .raw "", "", 99, none, ""⟩).status
        = "❌ 已過期" :=
  ⟨(status_derivation 0 100 _).2.2.2.2.1 (by decide),
   (status_derivation 0 100 _).2.2.2.2.2 (by decide),
   (status_derivation 0 100 _).2.1 (by decide)⟩

/-- C3: `decrypt_text` never raises: whenever the underlying Fernet
decryption fails (malformed string, foreign key, failed integrity
check), the wrapper returns the fixed sentinel string instead of
propagating the exception. -/
theorem decrypt_text_sentinel_on_failure (key : Nat) (c : CipherText)
    (h : fernet_decrypt key c = none) : decrypt_text key c = SENTINEL := by
  simp [decrypt_text, h]

/-- C3 witness: a raw non-token string, and a token under a foreign key,
both decrypt to the sentinel. -/
theorem decrypt_text_sentinel_on_failure_witness :
    decrypt_text 0 (.raw "garbage") = SENTINEL ∧
    decrypt_text 0 (.token 1 7 "secret") = SENTINEL :=
  ⟨decrypt_text_sentinel_on_failure 0 (.raw "garbage") rfl,
   decrypt_text_sentinel_on_failure 0 (.token 1 7 "secret") (by decide)⟩

/-- C4 counterexample: the round-trip fails at the empty string.
`encrypt_text` maps `""` to the empty string unchanged, which is not a
valid Fernet token, so `decrypt_text` on it returns the sentinel, not
`""`. -/
theorem roundtrip_fails_on_empty :
    decrypt_text 0 (encrypt_text 0 0 "") ≠ "" := by decide

/-- C4 amended: for every non-empty plaintext `p`,
`decrypt_text (encrypt_text p) = p`, and `encrypt_text ""` is the empty
string unchanged (a no-op); the round-trip does not extend to `""`, where
decryption of the empty string yields the sentinel. -/
theorem roundtrip_nonempty_and_empty_noop :
    (∀ key nonce p, p ≠ "" →
      decrypt_text key (encrypt_text key nonce p) = p) ∧
    (∀ key nonce, encrypt_text key nonce "" = CipherText.raw "") := by
  constructor
  · intro key nonce p hp
    simp [encrypt_text, hp, decrypt_text, fernet_decrypt]
  · intro key nonce
    simp [encrypt_text]

/-- C4 witness: the round-trip at a concrete non-empty plaintext, and the
empty-string no-op. -/
theorem roundtrip_nonempty_and_empty_noop_witness :
    decrypt_text 0 (encrypt_text 0 0 "王小明") = "王小明" ∧
    encrypt_text 0 0 "" = CipherText.raw "" :=
  ⟨roundtrip_nonempty_and_empty_noop.1 0 0 "王小明" (by decide),
   roundtrip_nonempty_and_empty_noop.2 0 0⟩

/-- C8: the sequence returned by `get_clients` is ordered by expiry_date
ascending (the store's `order("expiry_date")`; a failed read returns the
empty sequence, which is trivially ordered). -/
theorem get_clients_sorted_by_expiry (key : Nat) (today : Int)
    (t : ClientsTable) (agent_user : String) :
    List.Pairwise (fun a b => a.expiry_date ≤ b.expiry_date)
      (get_clients key today t agent_user) := by
  unfold get_clients
  cases hq : clients_select_eq_order t agent_user with
  | ok rows =>
    have hs : List.Pairwise expiry_le rows := by
      unfold clients_select_eq_order at hq
      by_cases hav : t.available
      · rw [if_pos hav] at hq
        rw [← Except.ok.inj hq]
        exact List.sorted_insertionSort expiry_le _
      · rw [if_neg hav] at hq
        exact absurd hq (by simp)
    exact List.pairwise_map.mpr (hs.imp (fun h => h))
  | error e =>
    exact List.Pairwise.nil

/-- C5: `login_user` fails with one single generic outcome — the pair
`(false, none)` — that is identical whether the username is unknown or
the password is wrong; on success it returns `(true, some u)` with `u`
the full stored row (its `full_name` included). -/
theorem login_user_uniform_failure (users : List UserRow) (un pw : String) :
    (users.find? (fun v => decide (v.username = un)) = none →
      login_user users un pw = (false, none)) ∧
    (∀ u, users.find? (fun v => decide (v.username = un)) = some u →
      check_password pw u.password_hash = false →
      login_user users un pw = (false, none)) ∧
    (∀ u, users.find? (fun v => decide (v.username = un)) = some u →
      check_password pw u.password_hash = true →
      login_user users un pw = (true, some u)) := by
  refine ⟨?_, ?_, ?_⟩
  · intro h
    simp [login_user, h]
  · intro u hu hpw
    simp [login_user, hu, hpw]
  · intro u hu hpw
    simp [login_user, hu, hpw]

/-- C5 witness: with one registered user, an unknown username and a wrong
password produce literally the same result, and the correct password
returns the full row. -/
theorem login_user_uniform_failure_witness :
    login_user [⟨"alice", "Alice Wu", hash_password "secret" 9⟩] "bob" "x"
        = (false, none) ∧
    login_user [⟨"alice", "Alice Wu", hash_password "secret" 9⟩] "alice" "wrong"
        = (false, none) ∧
    login_user [⟨"alice", "Alice Wu", hash_password "secret" 9⟩] "alice" "secret"
        = (true, some ⟨"alice", "Alice Wu", hash_password "secret" 9⟩) :=
  ⟨(login_user_uniform_failure [⟨"alice", "Alice Wu", hash_password "secret" 9⟩]
      "bob" "x").1 (by rfl),
   (login_user_uniform_failure [⟨"alice", "Alice Wu", hash_password "secret" 9⟩]
      "alice" "wrong").2.1 ⟨"alice", "Alice Wu", hash_password "secret" 9⟩
      (by rfl) (by rfl),
   (login_user_uniform_failure [⟨"alice", "Alice Wu", hash_password "secret" 9⟩]
      "alice" "secret").2.2 ⟨"alice", "Alice Wu", hash_password "secret" 9⟩
      (by rfl) (by rfl)⟩

/-- C6 counterexample: the search term is treated as a regular expression
(`Series.str.contains` defaults to `regex=True`), not a literal
substring.  The term "." is not a literal substring of the name "X" nor
of the plate "Y", yet the record is returned. -/
theorem main_search_filter_not_literal :
    main_search_filter "."
        [⟨1, "s", "X", "t", "Y", 5, 5, "", ""⟩]
      = some [⟨1, "s", "X", "t", "Y", 5, 5, "", ""⟩] ∧
    spec_contains_substring "." "X" = false ∧
    spec_contains_substring "." "Y" = false := by
  refine ⟨?_, ?_, ?_⟩ <;> rfl

/-- A pattern containing no regex special character parses to a sequence
of once-taken literal atoms. -/
theorem parsePat_literal (p : List Char) (hp : ∀ c ∈ p, c ∉ METACHARS) :
    parsePat p = some (p.map (fun c => RPiece.once (RAtom.chr c))) := by
  induction p with
  | nil => rfl
  | cons c rest ih =>
    have hc := hp c (List.mem_cons_self c rest)
    have hcu : c ∉ UNSUPPORTED := fun h =>
      hc (List.mem_cons_of_mem _ h)
    have hcd : ¬ (c = '.') := fun h => hc (by rw [h]; decide)
    have hrest : ∀ x ∈ rest, x ∉ METACHARS := fun x hx =>
      hp x (List.mem_cons_of_mem c hx)
    cases rest with
    | nil =>
      simp [parsePat, hcu, hcd]
    | cons q rest2 =>
      have hq := hrest q (List.mem_cons_self q rest2)
      have hqu : q ∉ UNSUPPORTED := fun h =>
        hq (List.mem_cons_of_mem _ h)
      have hqs : ¬ (q = '*') := fun h => hqu (by rw [h]; decide)
      have hqp : ¬ (q = '+') := fun h => hqu (by rw [h]; decide)
      have hqq : ¬ (q = '?') := fun h => hqu (by rw [h]; decide)
      simp [parsePat, hcu, hcd, hqs, hqp, hqq, ih hrest]

/-- On once-taken literal atoms the matcher is literal prefix matching,
for any sufficient fuel. -/
theorem matchHereF_literal : ∀ (fuel : Nat) (p s : List Char),
    p.length + s.length < fuel →
    matchHereF fuel (p.map (fun c => RPiece.once (RAtom.chr c))) s
      = litHere p s := by
  intro fuel
  induction fuel with
  | zero =>
    intro p s h
    exact absurd h (by omega)
  | succ f ih =>
    intro p s h
    cases p with
    | nil => rfl
    | cons a p2 =>
      cases s with
      | nil => rfl
      | cons c cs =>
        have hlen : p2.length + cs.length < f := by
          simp only [List.length_cons] at h
          omega
        simp [matchHereF, litHere, matchAtom, ih p2 cs hlen]

/-- On once-taken literal atoms, prefix matching is literal. -/
theorem matchHere_literal (p s : List Char) :
    matchHere (p.map (fun c => RPiece.once (RAtom.chr c))) s = litHere p s := by
  unfold matchHere
  rw [List.length_map]
  exact matchHereF_literal (p.length + s.length + 1) p s (by omega)

/-- On once-taken literal atoms, regex search is literal substring
search. -/
theorem reSearch_literal (p : List Char) :
    ∀ s, reSearch (p.map (fun c => RPiece.once (RAtom.chr c))) s
      = litSearch p s := by
  intro s
  induction s with
  | nil => simp [reSearch, litSearch, matchHere_literal]
  | cons c cs ih => simp [reSearch, litSearch, matchHere_literal, ih]

/-- An empty literal pattern matches every string. -/
theorem litSearch_nil (s : List Char) : litSearch [] s = true := by
  cases s <;> rfl

/-- C6 amended: the search filters by Python-regex containment of the
term in the decrypted name or plate (`str.contains` default
`regex=True`), which coincides with case-sensitive literal substring
containment whenever the term contains no regex metacharacter; an empty
or absent term returns the full record set unchanged. -/
theorem main_search_filter_amended (term : String)
    (records : List ProcessedClient) :
    (term = "" → main_search_filter term records = some records) ∧
    ((∀ c ∈ term.data, c ∉ METACHARS) →
      main_search_filter term records = some (records.filter (fun r =>
        spec_contains_substring term r.name
          || spec_contains_substring term r.plate))) := by
  constructor
  · intro h
    simp [main_search_filter, h]
  · intro hmeta
    by_cases hterm : term = ""
    · subst hterm
      simp [main_search_filter, spec_contains_substring, litSearch_nil,
        List.filter_eq_self]
    · have hp := parsePat_literal term.data hmeta
      have hre : ∀ s,
          reSearch (term.data.map (fun c => RPiece.once (RAtom.chr c))) s
            = litSearch term.data s :=
        fun s => reSearch_literal term.data s
      simp [main_search_filter, hterm, hp, spec_contains_substring, hre]

/-- C6 witness: an empty term is the identity, and a metacharacter-free
term filters exactly by literal substring containment of name or
plate. -/
theorem main_search_filter_amended_witness :
    main_search_filter "" [⟨1, "s", "王小明", "t", "ABC-1234", 5, 5, "", ""⟩]
      = some [⟨1, "s", "王小明", "t", "ABC-1234", 5, 5, "", ""⟩] ∧
    main_search_filter "ABC" [⟨1, "s", "王小明", "t", "ABC-1234", 5, 5, "", ""⟩]
      = some (List.filter (fun r =>
          spec_contains_substring "ABC" r.name
            || spec_contains_substring "ABC" r.plate)
          [⟨1, "s", "王小明", "t", "ABC-1234", 5, 5, "", ""⟩]) :=
  ⟨(main_search_filter_amended ""
      [⟨1, "s", "王小明", "t", "ABC-1234", 5, 5, "", ""⟩]).1 (by rfl),
   (main_search_filter_amended "ABC"
      [⟨1, "s", "王小明", "t", "ABC-1234", 5, 5, "", ""⟩]).2 (by decide)⟩

/-- C7 counterexample: a store failure does escape as an exception —
`delete_client` has no try/except, so on an unreachable backend the
store error propagates to the caller (modelled by `Except.error`)
instead of being surfaced as a failed operation. -/
theorem delete_client_propagates_failure :
    delete_client ⟨[], false⟩ 1 = Except.error StoreError.unavailable := by
  rfl

/-- C7 amended: a failed read (`get_clients`) is converted into an empty
result plus a reported error, and a failed create (`add_client`) is
surfaced to the caller as a failed operation with no partial side
effects (the table is unchanged); a failed delete, however, propagates
out of `delete_client` as an exception, because that function has no
handler. -/
theorem store_failure_handling (t : ClientsTable) (ht : t.available = false) :
    (∀ key today agent_user, get_clients key today t agent_user = []) ∧
    (∀ key nonce1 nonce2 new_id agent_user name plate phone expiry itype notes,
      add_client t key nonce1 nonce2 new_id agent_user name plate phone
        expiry itype notes = (false, t)) ∧
    (∀ client_id,
      delete_client t client_id = Except.error StoreError.unavailable) := by
  refine ⟨?_, ?_, ?_⟩
  · intro key today agent_user
    simp [get_clients, clients_select_eq_order, ht]
  · intros
    simp [add_client, ht]
  · intro client_id
    simp [delete_client, ht]

/-- C7 witness: the three behaviours on a concrete unreachable store. -/
theorem store_failure_handling_witness :
    get_clients 0 100 ⟨[], false⟩ "alice" = [] ∧
    add_client ⟨[], false⟩ 0 1 2 3 "alice" "n" "p" "" 5 "強制險" ""
      = (false, ⟨[], false⟩) ∧
    delete_client ⟨[], false⟩ 7 = Except.error StoreError.unavailable :=
  ⟨(store_failure_handling ⟨[], false⟩ (by rfl)).1 0 100 "alice",
   (store_failure_handling ⟨[], false⟩ (by rfl)).2.1 0 1 2 3 "alice" "n" "p"
      "" 5 "強制險" "",
   (store_failure_handling ⟨[], false⟩ (by rfl)).2.2 7⟩

/-- C9: `register` fails with `AlreadyExists` whenever the username is
already present, leaving the users table unchanged; otherwise it hashes
the password with the fresh salt and appends
`{username, full_name, password_hash}`. -/
theorem register_spec (users : List UserRow) (un fn pw : String) (salt : Nat) :
    (users.any (fun u => decide (u.username = un)) = true →
      register users un fn pw salt = (.error .alreadyExists, users)) ∧
    (users.any (fun u => decide (u.username = un)) = false →
      register users un fn pw salt =
        (.ok ⟨un, fn, hash_password pw salt⟩,
         users ++ [⟨un, fn, hash_password pw salt⟩])) := by
  constructor
  · intro h
    simp [register, h]
  · intro h
    simp [register, h]

/-- C9 witness: registering a fresh username persists the row; the second
registration of the same username fails and leaves the table as it
was. -/
theorem register_spec_witness :
    register [] "alice" "Alice Wu" "secret" 9 =
      (.ok ⟨"alice", "Alice Wu", hash_password "secret" 9⟩,
       [⟨"alice", "Alice Wu", hash_password "secret" 9⟩]) ∧
    register [⟨"alice", "Alice Wu", hash_password "secret" 9⟩]
        "alice" "Alice Again" "other" 4 =
      (.error .alreadyExists, [⟨"alice", "Alice Wu", hash_password "secret" 9⟩]) :=
  ⟨by
    have h := (register_spec [] "alice" "Alice Wu" "secret" 9).2 (by rfl)
    simpa using h,
   (register_spec [⟨"alice", "Alice Wu", hash_password "secret" 9⟩]
      "alice" "Alice Again" "other" 4).1 (by rfl)⟩

/-- C10: on a successful authentication, `login_user` returns the
complete stored users row — `password_hash` included — and `main` keeps
that entire row in the session state, so the session's stored
`user_info` still carries the password hash. -/
theorem login_session_keeps_full_row (users : List UserRow)
    (st : SessionState) (un pw : String) (u : UserRow)
    (hfind : users.find? (fun v => decide (v.username = un)) = some u)
    (hpw : check_password pw u.password_hash = true) :
    login_user users un pw = (true, some u) ∧
    main_login_step users st un pw = ⟨true, some u⟩ ∧
    (main_login_step users st un pw).user_info.map UserRow.password_hash
      = some u.password_hash := by
  have hl : login_user users un pw = (true, some u) := by
    simp [login_user, hfind, hpw]
  refine ⟨hl, ?_, ?_⟩
  · simp [main_login_step, hl]
  · simp [main_login_step, hl]

/-- C10 witness: a concrete successful login stores the full row,
password hash included, in the session. -/
theorem login_session_keeps_full_row_witness :
    main_login_step [⟨"alice", "Alice Wu", hash_password "secret" 9⟩]
        ⟨false, none⟩ "alice" "secret"
      = ⟨true, some ⟨"alice", "Alice Wu", hash_password "secret" 9⟩⟩ :=
  (login_session_keeps_full_row
    [⟨"alice", "Alice Wu", hash_password "secret" 9⟩]
    ⟨false, none⟩ "alice" "secret"
    ⟨"alice", "Alice Wu", hash_password "secret" 9⟩
    (by rfl) (by rfl)).2.1
